import Mathlib

/-!
Verification of the filter-and-aggregate core of `src/app.py` (an SSH-log
dashboard).  The pandas DataFrame is embedded as a `RecordSet`: a list of
column names together with a list of rows, each row an association list from
column name to an optional string cell (`none` models a missing value / NaN).
`display_dashboard` filters the frame by an EventId choice and a SourceIP
multiselect, then computes KPIs, top-N rankings of SourceIP, and an hourly
time series of parsed timestamps.
-/

namespace SSHMonitor

/-- A cell of the table: `none` models a missing value (pandas NaN). -/
abbrev Cell := Option String

/-- One row: an association list from column name to cell. -/
abbrev Row := List (String × Cell)

/-- The in-memory table: its column names and its rows, in order. -/
structure RecordSet where
  cols : List String
  rows : List Row
deriving DecidableEq, Repr

/-- Value of column `c` in row `r`; a key that is absent counts as missing. -/
def getCol (r : Row) (c : String) : Cell :=
  match r.lookup c with
  | some v => v
  | none => none

/-- Stringification of a cell, as pandas `astype(str)` renders NaN as "nan". -/
def strCell : Cell → String
  | none => "nan"
  | some s => s

/-- Predicate of line 47 of app.py: `df_filtered["EventId"].astype(str) == event_choice`. -/
def eventPred (E : String) (r : Row) : Bool :=
  strCell (getCol r "EventId") == E

/-- Predicate of line 50 of app.py: `df_filtered["SourceIP"].astype(str).isin(ip_choices)`. -/
def ipPred (P : List String) (r : Row) : Bool :=
  P.contains (strCell (getCol r "SourceIP"))

/-- Lines 46-47 of app.py: the EventId filter stage.  The rows survive
unfiltered unless the choice differs from the sentinel "Tous" and the
EventId column is present. -/
def eventFiltered (R : RecordSet) (E : String) : List Row :=
  if E ≠ "Tous" ∧ "EventId" ∈ R.cols then R.rows.filter (eventPred E) else R.rows

/-- Lines 44-50 of app.py: the full filter application.  `df.copy()` makes the
result a fresh record set; the SourceIP stage runs only when the selection
list is non-empty (Python truthiness of `ip_choices`) and the column exists. -/
def applyFilters (R : RecordSet) (E : String) (P : List String) : RecordSet :=
  ⟨R.cols,
   if P ≠ [] ∧ "SourceIP" ∈ R.cols then
     (eventFiltered R E).filter (ipPred P)
   else
     eventFiltered R E⟩

/-- The combined row predicate that §4.2 of the spec describes: keep a row iff
the EventId selection is the sentinel or the EventId matches, and the SourceIP
selection is empty or contains the row's SourceIP. -/
def specKeep (E : String) (P : List String) (r : Row) : Bool :=
  ((E == "Tous") || eventPred E r) && (P.isEmpty || ipPred P r)

/-- Example record set of §8 Example 1: five rows, three with SourceIP 1.2.3.4. -/
def exampleRS : RecordSet :=
  ⟨["SourceIP"],
   [[("SourceIP", some "1.2.3.4")],
    [("SourceIP", some "5.6.7.8")],
    [("SourceIP", some "1.2.3.4")],
    [("SourceIP", some "9.9.9.9")],
    [("SourceIP", some "1.2.3.4")]]⟩

theorem applyFilters_cols (R : RecordSet) (E : String) (P : List String) :
    (applyFilters R E P).cols = R.cols := by
  unfold applyFilters
  split <;> rfl

theorem eventFiltered_sublist (R : RecordSet) (E : String) :
    (eventFiltered R E).Sublist R.rows := by
  unfold eventFiltered
  split
  · exact List.filter_sublist _
  · exact List.Sublist.refl _

theorem applyFilters_rows_sublist (R : RecordSet) (E : String) (P : List String) :
    (applyFilters R E P).rows.Sublist R.rows := by
  unfold applyFilters
  dsimp only
  split
  · exact (List.filter_sublist _).trans (eventFiltered_sublist R E)
  · exact eventFiltered_sublist R E

/-- C1: under active columns the filtered view is exactly the rows passing the
conjunction of the two dimension predicates; in particular Example 1 keeps
exactly the three rows with SourceIP 1.2.3.4. -/
theorem filter_exact (R : RecordSet) (E : String) (P : List String)
    (hE : E = "Tous" ∨ "EventId" ∈ R.cols) (hP : P = [] ∨ "SourceIP" ∈ R.cols) :
    (applyFilters R E P).rows = R.rows.filter (specKeep E P) ∧
    (applyFilters exampleRS "Tous" ["1.2.3.4"]).rows.length = 3 := by
  refine ⟨?_, by decide⟩
  unfold applyFilters eventFiltered specKeep
  by_cases hE1 : E = "Tous" <;> by_cases hP1 : P = []
  · subst hE1; subst hP1
    simp
  · have hPc : "SourceIP" ∈ R.cols := hP.resolve_left hP1
    have hPe : P.isEmpty = false := by
      cases P with
      | nil => exact absurd rfl hP1
      | cons a l => rfl
    subst hE1
    simp [hP1, hPc, hPe]
  · have hEc : "EventId" ∈ R.cols := hE.resolve_left hE1
    subst hP1
    simp [hE1, hEc]
    apply List.filter_congr
    intro r _
    simp [hE1]
  · have hEc : "EventId" ∈ R.cols := hE.resolve_left hE1
    have hPc : "SourceIP" ∈ R.cols := hP.resolve_left hP1
    have hPe : P.isEmpty = false := by
      cases P with
      | nil => exact absurd rfl hP1
      | cons a l => rfl
    simp [hE1, hEc, hP1, hPc, List.filter_filter]
    apply List.filter_congr
    intro r _
    have hbe : (E == "Tous") = false := by
      simp [hE1]
    simp [hbe, hPe, Bool.and_comm]

theorem filter_exact_witness :
    (("Tous" : String) = "Tous" ∨ "EventId" ∈ exampleRS.cols) ∧
    ((["1.2.3.4"] : List String) = [] ∨ "SourceIP" ∈ exampleRS.cols) ∧
    ((applyFilters exampleRS "Tous" ["1.2.3.4"]).rows =
      exampleRS.rows.filter (specKeep "Tous" ["1.2.3.4"]) ∧
     (applyFilters exampleRS "Tous" ["1.2.3.4"]).rows.length = 3) :=
  ⟨Or.inl rfl, Or.inr (by decide),
   filter_exact exampleRS "Tous" ["1.2.3.4"] (Or.inl rfl) (Or.inr (by decide))⟩

/-- C2 counterexample: with the SourceIP column present and the accepted-value
set empty, the code's filter keeps every row — it does behave as always-pass,
contradicting the claim that an empty accepted-value set must not match
everything. -/
theorem empty_selection_matches_all :
    (applyFilters exampleRS "Tous" []).rows = exampleRS.rows ∧
    "SourceIP" ∈ exampleRS.cols ∧ exampleRS.rows ≠ [] := by
  refine ⟨by decide, by decide, by decide⟩

/-- C2 amended: an empty SourceIP accepted-value set is the no-constraint
state — line 49's truthiness test skips the SourceIP stage entirely, so the
result is exactly the EventId stage alone. -/
theorem empty_selection_no_constraint (R : RecordSet) (E : String) :
    (applyFilters R E []).rows = eventFiltered R E := by
  unfold applyFilters
  simp

/-- C3: applying the same filter selection twice gives the same view as
applying it once. -/
theorem applyFilters_idem (R : RecordSet) (E : String) (P : List String) :
    applyFilters (applyFilters R E P) E P = applyFilters R E P := by
  unfold applyFilters eventFiltered
  by_cases hEv : E ≠ "Tous" ∧ "EventId" ∈ R.cols <;>
    by_cases hIp : P ≠ [] ∧ "SourceIP" ∈ R.cols <;>
      simp [hEv, hIp, List.filter_filter]
  all_goals
    apply List.filter_congr
    intro a _
    cases eventPred E a <;> cases ipPred P a <;> rfl

/-- C4: filtering never adds rows, and the surviving rows form a sublist of
the input (same relative order). -/
theorem applyFilters_shrinks (R : RecordSet) (E : String) (P : List String) :
    (applyFilters R E P).rows.length ≤ R.rows.length ∧
    (applyFilters R E P).rows.Sublist R.rows :=
  ⟨(applyFilters_rows_sublist R E P).length_le, applyFilters_rows_sublist R E P⟩

/-- C5: a filter dimension whose column is absent from the record set is
always-pass: the result coincides with running the remaining dimensions with
that dimension set to its no-constraint state. -/
theorem absent_column_always_pass (R : RecordSet) (E : String) (P : List String) :
    ("EventId" ∉ R.cols → applyFilters R E P = applyFilters R "Tous" P) ∧
    ("SourceIP" ∉ R.cols → applyFilters R E P = applyFilters R E []) := by
  constructor
  · intro h
    unfold applyFilters eventFiltered
    simp [h]
  · intro h
    unfold applyFilters eventFiltered
    simp [h]

/-- Record set with neither filterable column, for the C5 witness. -/
def plainRS : RecordSet :=
  ⟨["Other"], [[("Other", some "x")], [("Other", some "y")]]⟩

theorem absent_column_always_pass_witness :
    ("EventId" ∉ plainRS.cols ∧
      applyFilters plainRS "42" ["1.1.1.1"] = applyFilters plainRS "Tous" ["1.1.1.1"]) ∧
    ("SourceIP" ∉ plainRS.cols ∧
      applyFilters plainRS "42" ["1.1.1.1"] = applyFilters plainRS "42" []) :=
  ⟨⟨by decide, (absent_column_always_pass plainRS "42" ["1.1.1.1"]).1 (by decide)⟩,
   ⟨by decide, (absent_column_always_pass plainRS "42" ["1.1.1.1"]).2 (by decide)⟩⟩

/-- The non-missing values of column `c`, in row order (pandas drops NaN in
`nunique` and `value_counts`). -/
def nonMissing (rows : List Row) (c : String) : List String :=
  rows.filterMap (fun r => getCol r c)

/-- Pandas `Series.nunique`: the number of distinct non-missing values. -/
def nunique (rows : List Row) (c : String) : Nat :=
  (nonMissing rows c).dedup.length

/-- Lines 60-63 of app.py: the three KPIs (total events, unique source IPs,
targeted users), with a missing column degrading its KPI to 0. -/
def metricSet (R : RecordSet) : Nat × Nat × Nat :=
  (R.rows.length,
   if "SourceIP" ∈ R.cols then nunique R.rows "SourceIP" else 0,
   if "User" ∈ R.cols then nunique R.rows "User" else 0)

/-- C6: the metric set is the row count together with the cardinalities of the
sets of distinct non-missing SourceIP and User values (0 when the column is
absent). -/
theorem metricSet_spec (R : RecordSet) :
    metricSet R =
      (R.rows.length,
       if "SourceIP" ∈ R.cols then (nonMissing R.rows "SourceIP").toFinset.card else 0,
       if "User" ∈ R.cols then (nonMissing R.rows "User").toFinset.card else 0) := by
  unfold metricSet nunique
  rw [List.card_toFinset, List.card_toFinset]

/-- Pandas `Series.value_counts`: one pair per distinct value with its number
of occurrences, sorted by count descending (ties in unspecified order; the
model uses a stable insertion sort). -/
def valueCounts (l : List String) : List (String × Nat) :=
  List.insertionSort (fun a b => b.2 ≤ a.2) (l.dedup.map (fun v => (v, l.count v)))

/-- Lines 79-99 of app.py: `value_counts().head(n)` over a column, empty when
the column is absent (the whole chart block is skipped). -/
def topN (R : RecordSet) (c : String) (n : Nat) : List (String × Nat) :=
  if c ∈ R.cols then (valueCounts (nonMissing R.rows c)).take n else []

/-- View of §8 Example 2: SourceIP values a, a, a, b, b, c. -/
def rankRS : RecordSet :=
  ⟨["SourceIP"],
   [[("SourceIP", some "a")], [("SourceIP", some "a")], [("SourceIP", some "a")],
    [("SourceIP", some "b")], [("SourceIP", some "b")], [("SourceIP", some "c")]]⟩

instance : IsTotal (String × Nat) (fun a b => b.2 ≤ a.2) :=
  ⟨fun a b => Nat.le_total b.2 a.2⟩

instance : IsTrans (String × Nat) (fun a b => b.2 ≤ a.2) :=
  ⟨fun _ _ _ h1 h2 => Nat.le_trans h2 h1⟩

theorem valueCounts_sorted (l : List String) :
    List.Sorted (fun a b : String × Nat => b.2 ≤ a.2) (valueCounts l) :=
  List.sorted_insertionSort _ _

theorem valueCounts_snd_sum (l : List String) :
    ((valueCounts l).map Prod.snd).sum = l.length := by
  unfold valueCounts
  rw [(List.perm_insertionSort _ _).map Prod.snd |>.sum_eq, List.map_map]
  exact l.sum_map_count_dedup_eq_length

theorem nonMissing_length_le (rows : List Row) (c : String) :
    (nonMissing rows c).length ≤ rows.length :=
  List.length_filterMap_le _ _

/-- C7: a top-N ranking over SourceIP has at most N entries, its counts are
non-increasing, their sum is at most the row count of the view, and the top-2
ranking of Example 2 is [(a, 3), (b, 2)]. -/
theorem topN_spec (R : RecordSet) (n : Nat) :
    (topN R "SourceIP" n).length ≤ n ∧
    List.Pairwise (fun a b : String × Nat => b.2 ≤ a.2) (topN R "SourceIP" n) ∧
    ((topN R "SourceIP" n).map Prod.snd).sum ≤ R.rows.length ∧
    topN rankRS "SourceIP" 2 = [("a", 3), ("b", 2)] := by
  refine ⟨?_, ?_, ?_, by decide⟩
  · unfold topN
    split
    · exact List.length_take_le _ _
    · exact Nat.zero_le _
  · unfold topN
    split
    · exact (valueCounts_sorted _).sublist (List.take_sublist _ _)
    · exact List.Pairwise.nil
  · unfold topN
    split
    · calc ((valueCounts (nonMissing R.rows "SourceIP")).take n |>.map Prod.snd).sum
          ≤ ((valueCounts (nonMissing R.rows "SourceIP")).map Prod.snd).sum := by
            rw [List.map_take]
            conv_rhs => rw [← List.take_append_drop n ((valueCounts _).map Prod.snd)]
            rw [List.sum_append]
            exact Nat.le_add_right _ _
        _ = (nonMissing R.rows "SourceIP").length := valueCounts_snd_sum _
        _ ≤ R.rows.length := nonMissing_length_le _ _
    · exact Nat.zero_le _

/-- Splits a character list at every occurrence of `sep` (occurrences are not
kept; empty chunks are). -/
def splitOnChar (sep : Char) : List Char → List (List Char)
  | [] => [[]]
  | c :: cs =>
    if c = sep then [] :: splitOnChar sep cs
    else
      match splitOnChar sep cs with
      | [] => [[c]]
      | w :: ws => (c :: w) :: ws

/-- Index (1-12) of a case-insensitive abbreviated month name, as strptime
`%b` accepts. -/
def monthIndex (cs : List Char) : Option Nat :=
  match cs.map Char.toLower with
  | ['j', 'a', 'n'] => some 1
  | ['f', 'e', 'b'] => some 2
  | ['m', 'a', 'r'] => some 3
  | ['a', 'p', 'r'] => some 4
  | ['m', 'a', 'y'] => some 5
  | ['j', 'u', 'n'] => some 6
  | ['j', 'u', 'l'] => some 7
  | ['a', 'u', 'g'] => some 8
  | ['s', 'e', 'p'] => some 9
  | ['o', 'c', 't'] => some 10
  | ['n', 'o', 'v'] => some 11
  | ['d', 'e', 'c'] => some 12
  | _ => none

/-- Days in each month of the implicit reference year 1900 (not a leap year),
which Python strptime assigns when the format has no year. -/
def daysInMonth : Nat → Nat
  | 1 => 31 | 2 => 28 | 3 => 31 | 4 => 30 | 5 => 31 | 6 => 30
  | 7 => 31 | 8 => 31 | 9 => 30 | 10 => 31 | 11 => 30 | 12 => 31
  | _ => 0

/-- Days of year 1900 elapsed before the first day of each month. -/
def cumDays : Nat → Nat
  | 1 => 0 | 2 => 31 | 3 => 59 | 4 => 90 | 5 => 120 | 6 => 151
  | 7 => 181 | 8 => 212 | 9 => 243 | 10 => 273 | 11 => 304 | 12 => 334
  | _ => 0

/-- Numeric field of at most two digits, as strptime `%d`, `%H`, `%M`, `%S`
accept. -/
def parseNum (cs : List Char) : Option Nat :=
  if cs ≠ [] ∧ cs.length ≤ 2 ∧ cs.all (fun c => c.isDigit) then
    some (cs.foldl (fun n c => n * 10 + (c.toNat - 48)) 0)
  else none

/-- Line 106-110 of app.py: `pd.to_datetime(s, format="%b %d %H:%M:%S",
errors="coerce")`, modelled after Python strptime on that fixed format: an
abbreviated month, a day and an `H:M:S` time, the whitespace of the format
matching runs of spaces; field values are range-checked (the day against the
month in the implicit year 1900).  The result is the timestamp in seconds
from Jan 1 00:00:00, or `none` when the string does not match (NaT). -/
def parseTS (s : String) : Option Nat :=
  match (splitOnChar ' ' s.toList).filter (fun w => w ≠ []) with
  | [mTok, dTok, tTok] =>
    match monthIndex mTok, parseNum dTok, splitOnChar ':' tTok with
    | some m, some d, [hTok, minTok, sTok] =>
      match parseNum hTok, parseNum minTok, parseNum sTok with
      | some hh, some mm, some ss =>
        if 1 ≤ d ∧ d ≤ daysInMonth m ∧ hh ≤ 23 ∧ mm ≤ 59 ∧ ss ≤ 59 then
          some ((((cumDays m + (d - 1)) * 24 + hh) * 60 + mm) * 60 + ss)
        else none
      | _, _, _ => none
    | _, _, _ => none
  | _ => none

/-- Seconds of the rows whose Timestamp cell parses, in row order (lines
106-111 of app.py: coercion to NaT followed by `dropna`). -/
def parsedSeconds (R : RecordSet) : List Nat :=
  R.rows.filterMap (fun r => (getCol r "Timestamp").bind parseTS)

/-- Hour index of each parsed timestamp: `resample("H")` floors to the
calendar hour. -/
def parsedHours (R : RecordSet) : List Nat :=
  (parsedSeconds R).map (fun s => s / 3600)

/-- Lines 103-115 of app.py: the hourly series
`df_time.set_index("Timestamp").resample("H").size()`.  Resample emits one
bucket per hour from the hour of the earliest parsed timestamp to the hour of
the latest, inclusive, counting the events that fall in each hour; it is empty
when no timestamp parses or the column is absent. -/
def timeSeries (R : RecordSet) : List (Nat × Nat) :=
  if "Timestamp" ∈ R.cols then
    match parsedHours R with
    | [] => []
    | h :: t =>
      (List.range (t.foldl max h + 1 - t.foldl min h)).map
        (fun i => (t.foldl min h + i, (parsedHours R).count (t.foldl min h + i)))
  else []

/-- View with the timestamps of §8 Example 3, one of them malformed. -/
def timeRS : RecordSet :=
  ⟨["Timestamp"],
   [[("Timestamp", some "Jan 1 00:10:00")],
    [("Timestamp", some "Jan 1 00:50:00")],
    [("Timestamp", some "Jan 1 01:05:00")],
    [("Timestamp", some "not-a-date")]]⟩

example : parseTS "Jan 1 00:10:00" = some 600 := by decide
example : parseTS "not-a-date" = none := by decide
example : parsedHours timeRS = [0, 0, 1] := by decide
example : timeSeries timeRS = [(0, 2), (1, 1)] := by decide

theorem foldl_min_le_self (t : List Nat) (a : Nat) : t.foldl min a ≤ a := by
  induction t generalizing a with
  | nil => exact Nat.le_refl a
  | cons x t ih =>
    exact Nat.le_trans (ih (min a x)) (Nat.min_le_left a x)

theorem foldl_min_le_mem (t : List Nat) (a : Nat) {x : Nat} (hx : x ∈ t) :
    t.foldl min a ≤ x := by
  induction t generalizing a with
  | nil => cases hx
  | cons y t ih =>
    rcases List.mem_cons.mp hx with rfl | hmem
    · exact Nat.le_trans (foldl_min_le_self t (min a x)) (Nat.min_le_right a x)
    · exact ih _ hmem

theorem le_foldl_max_self (t : List Nat) (a : Nat) : a ≤ t.foldl max a := by
  induction t generalizing a with
  | nil => exact Nat.le_refl a
  | cons x t ih =>
    exact Nat.le_trans (Nat.le_max_left a x) (ih (max a x))

theorem le_foldl_max_mem (t : List Nat) (a : Nat) {x : Nat} (hx : x ∈ t) :
    x ≤ t.foldl max a := by
  induction t generalizing a with
  | nil => cases hx
  | cons y t ih =>
    rcases List.mem_cons.mp hx with rfl | hmem
    · exact Nat.le_trans (Nat.le_max_right a x) (le_foldl_max_self t (max a x))
    · exact ih _ hmem

theorem sum_map_add_nat {α : Type} (l : List α) (f g : α → Nat) :
    (l.map (fun a => f a + g a)).sum = (l.map f).sum + (l.map g).sum := by
  induction l with
  | nil => rfl
  | cons x l ih =>
    simp only [List.map_cons, List.sum_cons, ih]
    omega

theorem sum_indicator_zero (lo x n : Nat) (h : ∀ i < n, lo + i ≠ x) :
    ((List.range n).map (fun i => if x = lo + i then 1 else 0)).sum = 0 := by
  induction n with
  | zero => rfl
  | succ n ih =>
    rw [List.range_succ, List.map_append, List.sum_append]
    rw [ih (fun i hi => h i (Nat.lt_succ_of_lt hi))]
    have : lo + n ≠ x := h n (Nat.lt_succ_self n)
    simp [this, Ne.symm this]

theorem sum_indicator_one (lo x n : Nat) (h1 : lo ≤ x) (h2 : x < lo + n) :
    ((List.range n).map (fun i => if x = lo + i then 1 else 0)).sum = 1 := by
  induction n with
  | zero => omega
  | succ n ih =>
    rw [List.range_succ, List.map_append, List.sum_append]
    by_cases hx : x = lo + n
    · rw [sum_indicator_zero lo x n (fun i hi => by omega)]
      simp [hx]
    · rw [ih (by omega)]
      simp [hx]

theorem sum_range_count (l : List Nat) (lo n : Nat)
    (h : ∀ x ∈ l, lo ≤ x ∧ x < lo + n) :
    ((List.range n).map (fun i => l.count (lo + i))).sum = l.length := by
  induction l with
  | nil => simp
  | cons x l ih =>
    have hx := h x (List.mem_cons_self x l)
    have hcnt : ∀ i : Nat, (x :: l).count (lo + i) =
        l.count (lo + i) + if x = lo + i then 1 else 0 := by
      intro i
      rw [List.count_cons]
      by_cases hxi : x = lo + i <;> simp [hxi]
    calc ((List.range n).map (fun i => (x :: l).count (lo + i))).sum
        = ((List.range n).map
            (fun i => l.count (lo + i) + if x = lo + i then 1 else 0)).sum := by
          simp only [hcnt]
      _ = ((List.range n).map (fun i => l.count (lo + i))).sum +
            ((List.range n).map (fun i => if x = lo + i then 1 else 0)).sum :=
          sum_map_add_nat _ _ _
      _ = l.length + 1 := by
          rw [ih (fun y hy => h y (List.mem_cons_of_mem x hy)),
            sum_indicator_one lo x n hx.1 hx.2]
      _ = (x :: l).length := by simp

/-- C8: the bucket counts of the time series sum to exactly the number of rows
whose Timestamp parses under the fixed format; rows that fail to parse are in
no bucket. -/
theorem timeSeries_sum (R : RecordSet) (hcol : "Timestamp" ∈ R.cols) :
    ((timeSeries R).map Prod.snd).sum =
      R.rows.countP (fun r => ((getCol r "Timestamp").bind parseTS).isSome) := by
  have hlen : (parsedHours R).length =
      R.rows.countP (fun r => ((getCol r "Timestamp").bind parseTS).isSome) := by
    unfold parsedHours parsedSeconds
    rw [List.length_map, List.length_filterMap_eq_countP]
  rw [← hlen]
  unfold timeSeries
  rw [if_pos hcol]
  split
  next hH => rw [hH]; rfl
  next h t hH =>
    rw [hH, List.map_map]
    have h3 : t.foldl min h ≤ t.foldl max h :=
      Nat.le_trans (foldl_min_le_self t h) (le_foldl_max_self t h)
    show ((List.range _).map
        (fun i => (h :: t).count (t.foldl min h + i))).sum = (h :: t).length
    apply sum_range_count
    intro x hx
    have h1 : t.foldl min h ≤ x := by
      rcases List.mem_cons.mp hx with rfl | hm
      · exact foldl_min_le_self t x
      · exact foldl_min_le_mem t h hm
    have h2 : x ≤ t.foldl max h := by
      rcases List.mem_cons.mp hx with rfl | hm
      · exact le_foldl_max_self t x
      · exact le_foldl_max_mem t h hm
    omega

theorem timeSeries_sum_witness :
    "Timestamp" ∈ timeRS.cols ∧
    ((timeSeries timeRS).map Prod.snd).sum =
      timeRS.rows.countP (fun r => ((getCol r "Timestamp").bind parseTS).isSome) :=
  ⟨by decide, timeSeries_sum timeRS (by decide)⟩

/-- C10: when some timestamp parses, the series covers every hour from the
earliest parsed hour to the latest, one entry per hour in strictly increasing
order, each entry counting the events of its hour (an hour with no event is an
explicit zero-count entry). -/
theorem timeSeries_dense (R : RecordSet) (h : Nat) (t : List Nat)
    (hcol : "Timestamp" ∈ R.cols) (hH : parsedHours R = h :: t) :
    (timeSeries R).map Prod.fst =
      List.range' (t.foldl min h) (t.foldl max h + 1 - t.foldl min h) ∧
    (∀ x ∈ parsedHours R, t.foldl min h ≤ x ∧ x ≤ t.foldl max h) ∧
    (∀ p ∈ timeSeries R, p.2 = (parsedHours R).count p.1) ∧
    ((timeSeries R).map Prod.fst).Pairwise (fun a b : Nat => a < b) := by
  have hbounds : ∀ x ∈ parsedHours R, t.foldl min h ≤ x ∧ x ≤ t.foldl max h := by
    intro x hx
    rw [hH] at hx
    constructor
    · rcases List.mem_cons.mp hx with rfl | hm
      · exact foldl_min_le_self t x
      · exact foldl_min_le_mem t h hm
    · rcases List.mem_cons.mp hx with rfl | hm
      · exact le_foldl_max_self t x
      · exact le_foldl_max_mem t h hm
  have hts : timeSeries R =
      (List.range (t.foldl max h + 1 - t.foldl min h)).map
        (fun i => (t.foldl min h + i, (parsedHours R).count (t.foldl min h + i))) := by
    unfold timeSeries
    rw [if_pos hcol]
    split
    next hH0 => rw [hH0] at hH; cases hH
    next h' t' hH' =>
      rw [hH'] at hH
      cases hH
      rfl
  have hfst : (timeSeries R).map Prod.fst =
      List.range' (t.foldl min h) (t.foldl max h + 1 - t.foldl min h) := by
    rw [hts, List.map_map, List.range'_eq_map_range]
    rfl
  refine ⟨hfst, hbounds, ?_, ?_⟩
  · intro p hp
    rw [hts] at hp
    rcases List.mem_map.mp hp with ⟨i, _, rfl⟩
    rfl
  · rw [hfst]
    exact List.pairwise_lt_range' _ _

theorem timeSeries_dense_witness :
    ("Timestamp" ∈ timeRS.cols ∧ parsedHours timeRS = 0 :: [0, 1]) ∧
    ((timeSeries timeRS).map Prod.fst =
        List.range' ([0, 1].foldl min 0) ([0, 1].foldl max 0 + 1 - [0, 1].foldl min 0) ∧
     (∀ x ∈ parsedHours timeRS, [0, 1].foldl min 0 ≤ x ∧ x ≤ [0, 1].foldl max 0) ∧
     (∀ p ∈ timeSeries timeRS, p.2 = (parsedHours timeRS).count p.1) ∧
     ((timeSeries timeRS).map Prod.fst).Pairwise (fun a b : Nat => a < b)) :=
  ⟨⟨by decide, by decide⟩, timeSeries_dense timeRS 0 [0, 1] (by decide) (by decide)⟩

/-- Outcome of `display_dashboard` after the filters: either the early return
of lines 52-54 (the "no results" warning), or the rendered artifacts — KPIs,
top-20 and top-10 SourceIP rankings, hourly series. -/
inductive DashboardResult where
  | noResults : DashboardResult
  | dashboard : (Nat × Nat × Nat) → List (String × Nat) → List (String × Nat) →
      List (Nat × Nat) → DashboardResult
deriving DecidableEq, Repr

/-- Lines 44-121 of app.py: filter, then either warn on an empty view or
compute every downstream artifact from the filtered view. -/
def displayDashboard (R : RecordSet) (E : String) (P : List String) : DashboardResult :=
  let V := applyFilters R E P
  if V.rows = [] then
    DashboardResult.noResults
  else
    DashboardResult.dashboard (metricSet V) (topN V "SourceIP" 20)
      (topN V "SourceIP" 10) (timeSeries V)

theorem metricSet_of_empty (R : RecordSet) (h : R.rows = []) :
    metricSet R = (0, 0, 0) := by
  simp [metricSet, nunique, nonMissing, h]

theorem topN_of_empty (R : RecordSet) (c : String) (n : Nat) (h : R.rows = []) :
    topN R c n = [] := by
  unfold topN valueCounts nonMissing
  rw [h]
  simp

theorem timeSeries_of_empty (R : RecordSet) (h : R.rows = []) :
    timeSeries R = [] := by
  have hph : parsedHours R = [] := by
    simp [parsedHours, parsedSeconds, h]
  unfold timeSeries
  rw [hph]
  split <;> rfl

/-- C9: an empty filtered view raises the "no results" signal and produces no
downstream artifacts; equivalently the artifacts an empty view would yield are
all-zero metrics, empty rankings and an empty time series — never an error. -/
theorem empty_view_no_results (R : RecordSet) (E : String) (P : List String)
    (hemp : (applyFilters R E P).rows = []) :
    displayDashboard R E P = DashboardResult.noResults ∧
    metricSet (applyFilters R E P) = (0, 0, 0) ∧
    topN (applyFilters R E P) "SourceIP" 20 = [] ∧
    topN (applyFilters R E P) "SourceIP" 10 = [] ∧
    timeSeries (applyFilters R E P) = [] := by
  refine ⟨?_, metricSet_of_empty _ hemp, topN_of_empty _ _ _ hemp,
    topN_of_empty _ _ _ hemp, timeSeries_of_empty _ hemp⟩
  unfold displayDashboard
  simp [hemp]

theorem empty_view_no_results_witness :
    (applyFilters exampleRS "Tous" ["7.7.7.7"]).rows = [] ∧
    (displayDashboard exampleRS "Tous" ["7.7.7.7"] = DashboardResult.noResults ∧
     metricSet (applyFilters exampleRS "Tous" ["7.7.7.7"]) = (0, 0, 0) ∧
     topN (applyFilters exampleRS "Tous" ["7.7.7.7"]) "SourceIP" 20 = [] ∧
     topN (applyFilters exampleRS "Tous" ["7.7.7.7"]) "SourceIP" 10 = [] ∧
     timeSeries (applyFilters exampleRS "Tous" ["7.7.7.7"]) = []) :=
  ⟨by decide, empty_view_no_results exampleRS "Tous" ["7.7.7.7"] (by decide)⟩

end SSHMonitor
